import Mathlib

/-!
Shallow embedding of the retrieval-and-reranking pipeline of the
RAG-constitution-RF repository:

* `src/rag_pipeline/reranker.py`  — `CrossEncoderReranker.rerank`
* `src/rag_pipeline/retriever.py` — `ConstitutionRetriever.retrieve`,
  `ConstitutionRetriever.get_context_for_llm`

Python floats are modelled as exact rationals (`ℚ`); Python exceptions as
`Except String`; the unnamed `None` returned by a Python function that falls
through without a `return` statement is modelled as `Option.none` in the
result type.  The cross-encoder scoring model, the embedding model and the
chroma collection are external collaborators: they enter the embedding as
function-valued parameters (`Env`, `IndexStore`), and the Lean definitions
reproduce exactly the control flow the repository's own code performs
around them.
-/

/-- Metadata dict attached to each stored document
(see `retriever.py` line 72 and the ingestion code). -/
structure Meta where
  chapter : String
  article_number : String
  source : String
deriving DecidableEq, Repr, Inhabited

/-- A candidate dict as built in `retriever.py` lines 70–74:
`{"text": ..., "metadata": ..., "distance": ...}` — no rerank score yet. -/
structure RawDoc where
  text : String
  metadata : Meta
  distance : ℚ
deriving DecidableEq, Repr, Inhabited

/-- A candidate dict after `reranker.py` line 61 has added the
`"rerank_score"` key. -/
structure ScoredDoc where
  text : String
  metadata : Meta
  distance : ℚ
  rerank_score : ℚ
deriving DecidableEq, Repr, Inhabited

/-- `doc["rerank_score"] = float(score)` (`reranker.py` lines 60–61),
viewed functionally: the raw candidate with the score key added. -/
def annotate (d : RawDoc) (s : ℚ) : ScoredDoc :=
  { text := d.text, metadata := d.metadata, distance := d.distance,
    rerank_score := s }

/-- External collaborators of the retriever that are functions of the query:
the embedding model (`embed`, which may raise) and the deterministic
cross-encoder pair scorer (`score`, `reranker.py` lines 48–58 for one pair). -/
structure Env where
  embed : String → Except String (List ℚ)
  score : String → String → ℚ

/-- The persistent chroma collection, as the retriever sees it: a query
operation from an embedding and `n_results` to candidate dicts, which may
raise.  `retrieve` performs no other operation on the collection. -/
structure IndexStore where
  query : List ℚ → Nat → Except String (List RawDoc)

/-- The batched scoring loop of `reranker.py` lines 44–58:
`for i in range(0, len(pairs), batch_size): scores.extend(model(pairs[i:i+batch_size]))`,
where the cross-encoder assigns each pair of a batch its own logit
(`outputs.logits.view(-1)`), modelled by the per-pair function `score`.
For `batch_size ≥ 1` this is exactly the Python loop; the Python loop
raises `ValueError` at `batch_size = 0`, which this function never is
called with. -/
def batchScores (score : String × String → ℚ) :
    List (String × String) → Nat → List ℚ
  | [], _ => []
  | p :: ps, b =>
      (score p :: (ps.take (b - 1)).map score) ++
        batchScores score (ps.drop (b - 1)) b
termination_by ps _ => ps.length
decreasing_by
  simp only [List.length_cons, List.length_drop]
  omega

/-- The effective comparison of `sorted(documents, key=lambda x: x["rerank_score"], reverse=True)`
(`reranker.py` line 63): `a` may stand before `b` iff `b`'s score does not
exceed `a`'s. -/
def scoreLE (a b : ScoredDoc) : Bool :=
  decide (b.rerank_score ≤ a.rerank_score)

/-- `CrossEncoderReranker.rerank` (`reranker.py` lines 27–71): build
`(query, text)` pairs, score them in batches, write each score into its
candidate dict (`zip(documents, scores)`), and return
`sorted(documents, key=lambda x: x["rerank_score"], reverse=True)` —
Python's `sorted` is a stable merge sort, and `reverse=True` keeps
equal-key elements in their original order, which is exactly a stable
merge sort under the comparison `a before b iff score b ≤ score a`. -/
def rerank (score : String → String → ℚ) (query : String)
    (documents : List RawDoc) (batch_size : Nat) : List ScoredDoc :=
  let pairs := documents.map fun d => (query, d.text)
  let scores := batchScores (fun p => score p.1 p.2) pairs batch_size
  let annotated := (documents.zip scores).map fun p => annotate p.1 p.2
  annotated.mergeSort scoreLE

/-- The threshold filter of `retriever.py` lines 84–87:
`[doc for doc in reranked_docs if doc["rerank_score"] >= relevance_threshold]`. -/
def thresholdFilter (relevance_threshold : ℚ) (docs : List ScoredDoc) :
    List ScoredDoc :=
  docs.filter fun d => decide (relevance_threshold ≤ d.rerank_score)

/-- `ConstitutionRetriever.retrieve` (`retriever.py` lines 48–92), with the
index store threaded explicitly.  The function returns
`((result, reranker invocation count), store after the call)`:

* the Python code performs only `self.collection.query`, a read, so every
  arm hands the store back unchanged;
* `Option.none` models the implicit Python `None`: when
  `use_reranker` is false and candidates were found, the method body ends
  without a `return` statement;
* the invocation count records how many times `self.reranker.rerank` ran;
* `retrieved_docs.copy()` at line 83 is a shallow list copy, which as a
  value is the same list of candidates;
* the default `batch_size=8` of `rerank` is used, as in the source. -/
def retrieveSt (env : Env) (st : IndexStore) (use_reranker : Bool)
    (query : String) (n_initial n_final : Nat) (relevance_threshold : ℚ) :
    (Except String (Option (List ScoredDoc)) × Nat) × IndexStore :=
  match env.embed query with
  | .error e => ((.error e, 0), st)
  | .ok query_embedding =>
    match st.query query_embedding n_initial with
    | .error e => ((.error e, 0), st)
    | .ok retrieved_docs =>
      if retrieved_docs.isEmpty then ((.ok (some []), 0), st)
      else if use_reranker then
        let reranked_docs := rerank env.score query retrieved_docs 8
        let filtered_docs := thresholdFilter relevance_threshold reranked_docs
        if filtered_docs.isEmpty then ((.ok (some []), 1), st)
        else ((.ok (some (filtered_docs.take n_final)), 1), st)
      else ((.ok none, 0), st)

/-- The result of `retrieve` together with the reranker invocation count. -/
def retrieveT (env : Env) (st : IndexStore) (use_reranker : Bool)
    (query : String) (n_initial n_final : Nat) (relevance_threshold : ℚ) :
    Except String (Option (List ScoredDoc)) × Nat :=
  (retrieveSt env st use_reranker query n_initial n_final relevance_threshold).1

/-- The value `retrieve` returns to its caller. -/
def retrieve (env : Env) (st : IndexStore) (use_reranker : Bool)
    (query : String) (n_initial n_final : Nat) (relevance_threshold : ℚ) :
    Except String (Option (List ScoredDoc)) :=
  (retrieveT env st use_reranker query n_initial n_final relevance_threshold).1

/-- One source block of `retriever.py` lines 110–113:
`f"Источник {i} ({metadata['article_number']}, {metadata['chapter']}):\n{text}\n"`. -/
def sourceBlock (i : Nat) (d : ScoredDoc) : String :=
  "Источник " ++ toString i ++ " (" ++ d.metadata.article_number ++ ", " ++
    d.metadata.chapter ++ "):\n" ++ d.text ++ "\n"

/-- `ConstitutionRetriever.get_context_for_llm` (`retriever.py` lines
94–115): call `retrieve` (with its default `relevance_threshold=0.5`),
then `"\n\n".join` the enumerated source blocks, numbering from 1.
If `retrieve` returned Python `None`, the `for` loop raises `TypeError`. -/
def get_context_for_llm (env : Env) (st : IndexStore) (use_reranker : Bool)
    (query : String) (n_initial n_final : Nat) : Except String String :=
  match retrieve env st use_reranker query n_initial n_final (1/2) with
  | .error e => .error e
  | .ok none => .error "TypeError: NoneType object is not iterable"
  | .ok (some documents) =>
      .ok (String.intercalate "\n\n"
        (documents.enum.map fun p => sourceBlock (p.1 + 1) p.2))

/-! ## Helper lemmas -/

theorem batchScores_eq_map (score : String × String → ℚ) :
    ∀ (pairs : List (String × String)) (b : Nat),
      batchScores score pairs b = pairs.map score
  | [], _ => by simp [batchScores]
  | p :: ps, b => by
      rw [batchScores, batchScores_eq_map score (ps.drop (b - 1)) b,
        List.cons_append, ← List.map_append, List.take_append_drop]
      simp
termination_by pairs _ => pairs.length
decreasing_by simp only [List.length_cons, List.length_drop]; omega

theorem zip_map_annotate (g : RawDoc → ℚ) :
    ∀ l : List RawDoc,
      ((l.zip (l.map g)).map fun p => annotate p.1 p.2) =
        l.map fun d => annotate d (g d)
  | [] => rfl
  | d :: l => by
      simp only [List.map_cons, List.zip_cons_cons, zip_map_annotate g l]

theorem rerank_eq (score : String → String → ℚ) (q : String)
    (docs : List RawDoc) (b : Nat) :
    rerank score q docs b =
      (docs.map fun d => annotate d (score q d.text)).mergeSort scoreLE := by
  simp only [rerank, batchScores_eq_map, List.map_map]
  rw [show ((fun p : String × String => score p.1 p.2) ∘ fun d : RawDoc =>
    (q, d.text)) = fun d : RawDoc => score q d.text from rfl]
  rw [zip_map_annotate]

theorem scoreLE_trans : ∀ a b c : ScoredDoc,
    scoreLE a b → scoreLE b c → scoreLE a c := by
  intro a b c hab hbc
  simp only [scoreLE, decide_eq_true_eq] at *
  exact le_trans hbc hab

theorem scoreLE_total : ∀ a b : ScoredDoc, scoreLE a b || scoreLE b a := by
  intro a b
  simp only [scoreLE, Bool.or_eq_true, decide_eq_true_eq]
  exact le_total b.rerank_score a.rerank_score

/-! ## Claim theorems -/

/-- **C6.** For every query, every candidate list, and every two batch sizes
`b1 ≥ 1` and `b2 ≥ 1`, running `rerank` with batch size `b1` and with batch
size `b2` yields identical scores for every candidate and identical output
ordering — batching is invisible in the result. -/
theorem rerank_batch_size_independent (score : String → String → ℚ)
    (q : String) (docs : List RawDoc) (b1 b2 : Nat)
    (h1 : 1 ≤ b1) (h2 : 1 ≤ b2) :
    rerank score q docs b1 = rerank score q docs b2 := by
  rw [rerank_eq, rerank_eq]

/-- Witness for C6 at a concrete scorer, query, two-candidate list and batch
sizes 1 and 3. -/
theorem rerank_batch_size_independent_witness :
    1 ≤ 1 ∧ 1 ≤ 3 ∧
      rerank (fun _ t => (t.length : ℚ)) "q"
          [⟨"aa", ⟨"ch1", "art1", "src"⟩, 0⟩, ⟨"b", ⟨"ch1", "art2", "src"⟩, 0⟩] 1 =
        rerank (fun _ t => (t.length : ℚ)) "q"
          [⟨"aa", ⟨"ch1", "art1", "src"⟩, 0⟩, ⟨"b", ⟨"ch1", "art2", "src"⟩, 0⟩] 3 :=
  ⟨by decide, by decide,
    rerank_batch_size_independent (fun _ t => (t.length : ℚ)) "q"
      [⟨"aa", ⟨"ch1", "art1", "src"⟩, 0⟩, ⟨"b", ⟨"ch1", "art2", "src"⟩, 0⟩] 1 3
      (by decide) (by decide)⟩

/-- **C2.** For every query and every non-empty candidate list, `rerank`
returns the same multiset of candidates as its input, each annotated with a
rerank score, ordered by descending rerank score (adjacent pairs satisfy
`score a ≥ score b`) with ties between equal scores broken by the
candidates' original vector-stage order (stability: any correctly ordered
pair of the annotated input stays a sublist of the output). -/
theorem rerank_perm_sorted_stable (score : String → String → ℚ) (q : String)
    (docs : List RawDoc) (b : Nat) (hb : 1 ≤ b) (hne : docs ≠ []) :
    (rerank score q docs b).Perm
        (docs.map fun d => annotate d (score q d.text)) ∧
      (rerank score q docs b).Chain'
        (fun a c => c.rerank_score ≤ a.rerank_score) ∧
      ∀ a c : ScoredDoc,
        List.Sublist [a, c] (docs.map fun d => annotate d (score q d.text)) →
        c.rerank_score ≤ a.rerank_score →
        List.Sublist [a, c] (rerank score q docs b) := by
  rw [rerank_eq]
  refine ⟨List.mergeSort_perm _ _, ?_, ?_⟩
  · exact ((List.sorted_mergeSort scoreLE_trans scoreLE_total _).imp
      fun h => of_decide_eq_true h).chain'
  · intro a c hsub hle
    exact List.pair_sublist_mergeSort scoreLE_trans scoreLE_total
      (decide_eq_true hle) hsub

/-- Witness for C2: batch size 1 and a concrete non-empty candidate list;
the permutation conjunct, instantiated. -/
theorem rerank_perm_sorted_stable_witness :
    (rerank (fun _ t => (t.length : ℚ)) "q"
        [⟨"aa", ⟨"ch1", "art1", "src"⟩, 0⟩, ⟨"b", ⟨"ch1", "art2", "src"⟩, 0⟩] 1).Perm
      ([⟨"aa", ⟨"ch1", "art1", "src"⟩, 0⟩,
        (⟨"b", ⟨"ch1", "art2", "src"⟩, 0⟩ : RawDoc)].map
        fun d => annotate d (((fun _ t => (t.length : ℚ)) "q" d.text))) :=
  (rerank_perm_sorted_stable (fun _ t => (t.length : ℚ)) "q"
    [⟨"aa", ⟨"ch1", "art1", "src"⟩, 0⟩, ⟨"b", ⟨"ch1", "art2", "src"⟩, 0⟩] 1
    (by decide) (by decide)).1

theorem retrieveSt_embed_error (env : Env) (st : IndexStore) (u : Bool)
    (q : String) (ni nf : Nat) (t : ℚ) (e : String)
    (he : env.embed q = .error e) :
    retrieveSt env st u q ni nf t = ((.error e, 0), st) := by
  unfold retrieveSt
  simp only [he]

theorem retrieveSt_query_error (env : Env) (st : IndexStore) (u : Bool)
    (q : String) (ni nf : Nat) (t : ℚ) (emb : List ℚ) (e : String)
    (hemb : env.embed q = .ok emb) (hq : st.query emb ni = .error e) :
    retrieveSt env st u q ni nf t = ((.error e, 0), st) := by
  unfold retrieveSt
  simp only [hemb, hq]

theorem retrieveSt_ok (env : Env) (st : IndexStore) (u : Bool) (q : String)
    (ni nf : Nat) (t : ℚ) (emb : List ℚ) (docs : List RawDoc)
    (hemb : env.embed q = .ok emb) (hq : st.query emb ni = .ok docs) :
    retrieveSt env st u q ni nf t =
      (if docs.isEmpty then ((.ok (some []), 0), st)
       else if u then
         if (thresholdFilter t (rerank env.score q docs 8)).isEmpty then
           ((.ok (some []), 1), st)
         else
           ((.ok (some ((thresholdFilter t (rerank env.score q docs 8)).take nf)),
             1), st)
       else ((.ok none, 0), st)) := by
  unfold retrieveSt
  simp only [hemb, hq]

theorem countP_threshold (t : ℚ) (l : List ScoredDoc) :
    (l.countP fun d => decide (t ≤ d.rerank_score)) =
      (thresholdFilter t l).length := by
  rw [List.countP_eq_length_filter]
  rfl

/-- **C1.** For every query, a retriever constructed with
`use_reranker = True`, and arguments `n_initial ≥ n_final ≥ 0`, when the
embedding and index calls succeed the sequence returned by `retrieve` has
length `min n_final (number of candidates whose rerank score ≥
relevance_threshold)`; in particular its length never exceeds `n_final`
(and it may be zero). -/
theorem retrieve_length_min (env : Env) (st : IndexStore) (q : String)
    (n_initial n_final : Nat) (t : ℚ) (emb : List ℚ) (docs : List RawDoc)
    (hfin : n_final ≤ n_initial)
    (hemb : env.embed q = .ok emb) (hq : st.query emb n_initial = .ok docs) :
    ∃ res : List ScoredDoc,
      retrieve env st true q n_initial n_final t = .ok (some res) ∧
        res.length =
          min n_final ((rerank env.score q docs 8).countP
            fun d => decide (t ≤ d.rerank_score)) ∧
        res.length ≤ n_final := by
  unfold retrieve retrieveT
  rw [retrieveSt_ok env st true q n_initial n_final t emb docs hemb hq,
    countP_threshold]
  by_cases hd : docs.isEmpty
  · have hnil : docs = [] := List.isEmpty_iff.1 hd
    subst hnil
    refine ⟨[], by simp, ?_, by simp⟩
    simp [rerank_eq, thresholdFilter]
  · by_cases hf : (thresholdFilter t (rerank env.score q docs 8)).isEmpty
    · refine ⟨[], by simp [hd, hf], ?_, by simp⟩
      rw [List.isEmpty_iff.1 hf]
      simp
    · refine ⟨(thresholdFilter t (rerank env.score q docs 8)).take n_final,
        by simp [hd, hf], ?_, ?_⟩
      · rw [List.length_take]
      · rw [List.length_take]
        exact Nat.min_le_left _ _

/-- A concrete scoring environment for witnesses: the embedding call
succeeds and a pair's score is the length of the candidate's text. -/
def constEnv : Env :=
  { embed := fun _ => .ok [1], score := fun _ t => (t.length : ℚ) }

/-- The two candidates a concrete witness index returns. -/
def docsW : List RawDoc :=
  [⟨"aa", ⟨"ch1", "art1", "src"⟩, 0⟩, ⟨"b", ⟨"ch1", "art2", "src"⟩, 0⟩]

/-- A concrete index store holding the two witness candidates. -/
def twoDocStore : IndexStore := { query := fun _ _ => .ok docsW }

/-- A concrete index store that finds nothing. -/
def emptyStore : IndexStore := { query := fun _ _ => .ok [] }

/-- An environment whose embedding backend raises a connection error. -/
def connFailEnv : Env :=
  { embed := fun _ => .error "ConnectionError: embedding backend unreachable",
    score := fun _ _ => 0 }

/-- Witness for C1 at a concrete environment where only one of the two
candidates passes the threshold 3/2 and `n_final = 1`. -/
theorem retrieve_length_min_witness :
    ∃ res : List ScoredDoc,
      retrieve constEnv twoDocStore true "q" 10 1 (3/2) = .ok (some res) ∧
        res.length =
          min 1 ((rerank constEnv.score "q" docsW 8).countP
            fun d => decide ((3/2 : ℚ) ≤ d.rerank_score)) ∧
        res.length ≤ 1 :=
  retrieve_length_min constEnv twoDocStore "q" 10 1 (3/2) [1] docsW
    (by decide) rfl rfl

/-- Modelled from the spec: the spec names a distinct `RetrievalUnavailable`
error condition for backend failures.  No such error type, class or wrapping
exists anywhere in the source, so the condition is modelled as an error
value carrying that name, to be compared with what the code actually
raises. -/
def RetrievalUnavailable : String := "RetrievalUnavailable"

/-- **C3, counterexample.** At a concrete environment whose embedding
backend raises a connection error, `retrieve` propagates the backend's own
error, which is not a `RetrievalUnavailable` error: the source has no
`RetrievalUnavailable` (or any) error wrapping at all. -/
theorem retrieve_error_not_retrievalUnavailable :
    retrieve connFailEnv emptyStore true "q" 10 5 (1/2) =
        .error "ConnectionError: embedding backend unreachable" ∧
      "ConnectionError: embedding backend unreachable" ≠
        RetrievalUnavailable := by
  exact ⟨rfl, by decide⟩

/-- **C3, amended.** For every query, if the embedding provider or the
vector index fails, `retrieve` fails by propagating that very backend
error — it never returns an empty (or any) result list in place of the
failure — but the error is the raw backend exception, not a dedicated
`RetrievalUnavailable` error condition. -/
theorem retrieve_propagates_backend_error (env : Env) (st : IndexStore)
    (u : Bool) (q : String) (ni nf : Nat) (t : ℚ) (e : String) :
    (env.embed q = .error e → retrieve env st u q ni nf t = .error e) ∧
      ∀ emb, env.embed q = .ok emb → st.query emb ni = .error e →
        retrieve env st u q ni nf t = .error e := by
  constructor
  · intro he
    unfold retrieve retrieveT
    rw [retrieveSt_embed_error env st u q ni nf t e he]
  · intro emb hemb hq
    unfold retrieve retrieveT
    rw [retrieveSt_query_error env st u q ni nf t emb e hemb hq]

/-- Witness for the amended C3: the concrete failing embedding backend. -/
theorem retrieve_propagates_backend_error_witness :
    retrieve connFailEnv emptyStore true "q" 10 5 (1/2) =
      .error "ConnectionError: embedding backend unreachable" :=
  (retrieve_propagates_backend_error connFailEnv emptyStore true "q" 10 5
    (1/2) "ConnectionError: embedding backend unreachable").1 rfl

/-- **C4.** For every query for which the vector index returns zero
candidates, `retrieve` returns the empty sequence (`.ok (some [])`, not an
error) and the reranker is invoked zero times. -/
theorem retrieve_empty_index_no_rerank (env : Env) (st : IndexStore)
    (u : Bool) (q : String) (ni nf : Nat) (t : ℚ) (emb : List ℚ)
    (hemb : env.embed q = .ok emb) (hq : st.query emb ni = .ok []) :
    retrieveT env st u q ni nf t = (.ok (some []), 0) := by
  unfold retrieveT
  rw [retrieveSt_ok env st u q ni nf t emb [] hemb hq]
  rfl

/-- Witness for C4: a concrete store whose query finds nothing. -/
theorem retrieve_empty_index_no_rerank_witness :
    retrieveT constEnv emptyStore true "q" 10 5 (1/2) = (.ok (some []), 0) :=
  retrieve_empty_index_no_rerank constEnv emptyStore true "q" 10 5 (1/2) [1]
    rfl rfl

/-- **C5.** Every candidate whose rerank score is exactly equal to
`relevance_threshold` passes the threshold filter of `retrieve` (the lower
bound is inclusive: the comparison is `>=`). -/
theorem thresholdFilter_inclusive (t : ℚ) (docs : List ScoredDoc)
    (d : ScoredDoc) (hmem : d ∈ docs) (heq : d.rerank_score = t) :
    d ∈ thresholdFilter t docs := by
  unfold thresholdFilter
  exact List.mem_filter.2 ⟨hmem, by simp [heq]⟩

/-- Witness for C5: a concrete candidate scoring exactly the threshold. -/
theorem thresholdFilter_inclusive_witness :
    (⟨"t", ⟨"ch1", "art1", "src"⟩, 0, 1/2⟩ : ScoredDoc) ∈
      thresholdFilter (1/2) [⟨"t", ⟨"ch1", "art1", "src"⟩, 0, 1/2⟩] :=
  thresholdFilter_inclusive (1/2) [⟨"t", ⟨"ch1", "art1", "src"⟩, 0, 1/2⟩]
    ⟨"t", ⟨"ch1", "art1", "src"⟩, 0, 1/2⟩ (List.Mem.head _) rfl

/-- **C7.** `retrieve` leaves the index store (and hence every stored
document) unchanged, and a second call with identical inputs against the
store left by the first call returns the identical ordered output — the
scoring model and embedding are deterministic functions in the model, as
the claim assumes. -/
theorem retrieve_deterministic_and_readonly (env : Env) (st : IndexStore)
    (u : Bool) (q : String) (ni nf : Nat) (t : ℚ) :
    (retrieveSt env st u q ni nf t).2 = st ∧
      (retrieveSt env ((retrieveSt env st u q ni nf t).2) u q ni nf t).1 =
        (retrieveSt env st u q ni nf t).1 := by
  have hst : (retrieveSt env st u q ni nf t).2 = st := by
    rcases henv : env.embed q with e | emb
    · rw [retrieveSt_embed_error env st u q ni nf t e henv]
    · rcases hq : st.query emb ni with e | docs
      · rw [retrieveSt_query_error env st u q ni nf t emb e henv hq]
      · rw [retrieveSt_ok env st u q ni nf t emb docs henv hq]
        by_cases hd : docs.isEmpty
        · simp [hd]
        · by_cases hu : u
          · by_cases hf :
              (thresholdFilter t (rerank env.score q docs 8)).isEmpty <;>
              simp [hd, hu, hf]
          · simp [hd, hu]
  exact ⟨hst, by rw [hst]⟩

/-- **C8.** For a retriever constructed with `use_reranker = False` and a
query for which the index returns at least one candidate, `retrieve`
returns Python `None` (no list at all): the non-reranking path of the
source falls through without a `return` statement. -/
theorem retrieve_no_reranker_none (env : Env) (st : IndexStore) (q : String)
    (ni nf : Nat) (t : ℚ) (emb : List ℚ) (docs : List RawDoc)
    (hemb : env.embed q = .ok emb) (hq : st.query emb ni = .ok docs)
    (hne : docs ≠ []) :
    retrieve env st false q ni nf t = .ok none := by
  unfold retrieve retrieveT
  rw [retrieveSt_ok env st false q ni nf t emb docs hemb hq]
  simp [hne]

/-- Witness for C8: the concrete two-candidate store with the reranker
disabled. -/
theorem retrieve_no_reranker_none_witness :
    retrieve constEnv twoDocStore false "q" 10 5 (1/2) = .ok none :=
  retrieve_no_reranker_none constEnv twoDocStore "q" 10 5 (1/2) [1] docsW
    rfl rfl (by decide)

/-- **C10.** If `retrieve` returns the empty sequence,
`get_context_for_llm` returns the empty string; and for a result of `k`
documents it returns exactly `k` source blocks joined in the result's
order (with `"\n\n"`), numbered 1 through `k`, block `i` holding document
`i`'s article number, chapter and text (see `sourceBlock`). -/
theorem get_context_structure (env : Env) (st : IndexStore) (u : Bool)
    (q : String) (ni nf : Nat) (docs : List ScoredDoc)
    (h : retrieve env st u q ni nf (1/2) = .ok (some docs)) :
    (docs = [] → get_context_for_llm env st u q ni nf = .ok "") ∧
      ∃ parts : List String,
        get_context_for_llm env st u q ni nf =
          .ok (String.intercalate "\n\n" parts) ∧
          parts.length = docs.length ∧
          ∀ i, i < docs.length →
            parts.getD i "" = sourceBlock (i + 1) (docs.getD i default) := by
  constructor
  · intro hnil
    subst hnil
    unfold get_context_for_llm
    rw [h]
    rfl
  · refine ⟨docs.enum.map fun p => sourceBlock (p.1 + 1) p.2, ?_, by simp, ?_⟩
    · unfold get_context_for_llm
      rw [h]
    · intro i hi
      simp only [List.getD_eq_getElem?_getD, List.getElem?_map, List.enum,
        List.getElem?_enumFrom, List.getElem?_eq_getElem hi, Option.map_some,
        Option.getD_some, Nat.zero_add]
      rfl

/-- Witness for C10: a query on which the index finds nothing, so
`retrieve` returns the empty sequence and the hypothesis holds by `rfl`. -/
theorem get_context_structure_witness :
    (([] : List ScoredDoc) = [] →
        get_context_for_llm constEnv emptyStore true "q" 10 5 = .ok "") ∧
      ∃ parts : List String,
        get_context_for_llm constEnv emptyStore true "q" 10 5 =
          .ok (String.intercalate "\n\n" parts) ∧
          parts.length = ([] : List ScoredDoc).length ∧
          ∀ i, i < ([] : List ScoredDoc).length →
            parts.getD i "" =
              sourceBlock (i + 1) (([] : List ScoredDoc).getD i default) :=
  get_context_structure constEnv emptyStore true "q" 10 5 [] rfl

/-!
## Heap view of `rerank` for the in-place mutation claim

Python dicts are mutable objects: `doc["rerank_score"] = float(score)`
(`reranker.py` lines 60–61) writes into the very dicts the caller holds,
and `retrieved_docs.copy()` (`retriever.py` line 83) copies only the list
of references, not the dicts.  To state this, the object store is made
explicit: a heap of candidate dicts addressed by position, where the
`"rerank_score"` key may be absent (`none`) or present.
-/

/-- A candidate dict as a heap object; `rerank_score = none` means the key
is absent (the state before reranking). -/
structure CandDict where
  text : String
  metadata : Meta
  distance : ℚ
  rerank_score : Option ℚ
deriving DecidableEq, Repr, Inhabited

/-- The write loop of `reranker.py` lines 60–61 over the heap:
`for doc, score in zip(documents, scores): doc["rerank_score"] = float(score)`,
where `documents` is the list of addresses and each pair's score is the
per-pair model score of the dict's own text. -/
def writeScores (score : String → String → ℚ) (q : String)
    (heap : List CandDict) (addrs : List Nat) : List CandDict :=
  addrs.foldl
    (fun h a =>
      h.set a
        { h.getD a default with
          rerank_score := some (score q (h.getD a default).text) })
    heap

/-- `CrossEncoderReranker.rerank` on the heap: write all scores in place,
then return the updated heap together with the address list sorted stably
by descending stored score (`reranker.py` line 63).  The input address
list `addrs` is the caller's `retrieved_docs` itself: the `.copy()` at
`retriever.py` line 83 duplicates only the address list, so it is the same
list of addresses. -/
def rerankHeap (score : String → String → ℚ) (q : String)
    (heap : List CandDict) (addrs : List Nat) : List CandDict × List Nat :=
  let h := writeScores score q heap addrs
  (h, addrs.mergeSort fun a b =>
    decide (((h.getD b default).rerank_score.getD 0) ≤
      ((h.getD a default).rerank_score.getD 0)))

theorem writeScores_nil (score : String → String → ℚ) (q : String)
    (heap : List CandDict) : writeScores score q heap [] = heap := rfl

theorem writeScores_cons (score : String → String → ℚ) (q : String)
    (heap : List CandDict) (a : Nat) (rest : List Nat) :
    writeScores score q heap (a :: rest) =
      writeScores score q
        (heap.set a
          { heap.getD a default with
            rerank_score := some (score q (heap.getD a default).text) })
        rest := rfl

theorem getElem?_writeScores_not_mem (score : String → String → ℚ)
    (q : String) (addrs : List Nat) :
    ∀ (heap : List CandDict) (a : Nat), a ∉ addrs →
      (writeScores score q heap addrs)[a]? = heap[a]? := by
  induction addrs with
  | nil => intro heap a _; rfl
  | cons b rest ih =>
      intro heap a ha
      have hba : b ≠ a := by
        intro h
        subst h
        exact ha (List.mem_cons_self b rest)
      rw [writeScores_cons, ih _ _ (fun h => ha (List.mem_cons_of_mem b h))]
      exact List.getElem?_set_ne hba

theorem getElem?_writeScores_mem (score : String → String → ℚ)
    (q : String) (addrs : List Nat) :
    ∀ (heap : List CandDict) (a : Nat), a ∈ addrs → addrs.Nodup →
      a < heap.length →
      (writeScores score q heap addrs)[a]? =
        some
          { heap.getD a default with
            rerank_score := some (score q (heap.getD a default).text) } := by
  induction addrs with
  | nil => intro heap a ha _ _; cases ha
  | cons b rest ih =>
      intro heap a ha hnd hlt
      obtain ⟨hb, hndr⟩ := List.nodup_cons.1 hnd
      rw [writeScores_cons]
      rcases List.mem_cons.1 ha with rfl | hmem
      · rw [getElem?_writeScores_not_mem score q rest _ _ hb]
        exact List.getElem?_set_self hlt
      · have hne : b ≠ a := fun h => hb (h ▸ hmem)
        rw [ih _ _ hmem hndr (by rw [List.length_set]; exact hlt)]
        have : (heap.set b
            { heap.getD b default with
              rerank_score := some (score q (heap.getD b default).text) }).getD
              a default = heap.getD a default := by
          simp [List.getD_eq_getElem?_getD, List.getElem?_set_ne hne]
        rw [this]

/-- **C9.** `rerank` mutates its input in place: after the call, every
candidate dict of the input address list carries a `rerank_score` key
holding the model score of that dict's own text, while its `text`,
`metadata` and `distance` fields are unchanged (and dicts outside the
input list are untouched).  Since `retrieve` passes
`retrieved_docs.copy()` — a shallow copy, i.e. the very same addresses —
these annotations are visible through the caller's original candidate
dicts. -/
theorem rerankHeap_mutates_in_place (score : String → String → ℚ)
    (q : String) (heap : List CandDict) (addrs : List Nat)
    (hnd : addrs.Nodup) (hlt : ∀ a ∈ addrs, a < heap.length) :
    (∀ a ∈ addrs,
        ((rerankHeap score q heap addrs).1.getD a default).rerank_score =
            some (score q ((heap.getD a default).text)) ∧
          ((rerankHeap score q heap addrs).1.getD a default).text =
            (heap.getD a default).text ∧
          ((rerankHeap score q heap addrs).1.getD a default).metadata =
            (heap.getD a default).metadata ∧
          ((rerankHeap score q heap addrs).1.getD a default).distance =
            (heap.getD a default).distance) ∧
      ∀ a, a ∉ addrs →
        (rerankHeap score q heap addrs).1.getD a default =
          heap.getD a default := by
  constructor
  · intro a ha
    have h := getElem?_writeScores_mem score q addrs heap a ha hnd (hlt a ha)
    have hgd : (rerankHeap score q heap addrs).1.getD a default =
        { heap.getD a default with
          rerank_score := some (score q (heap.getD a default).text) } := by
      show (writeScores score q heap addrs).getD a default = _
      rw [List.getD_eq_getElem?_getD, h]
      rfl
    rw [hgd]
    exact ⟨rfl, rfl, rfl, rfl⟩
  · intro a ha
    show (writeScores score q heap addrs).getD a default = _
    rw [List.getD_eq_getElem?_getD,
      getElem?_writeScores_not_mem score q addrs heap a ha,
      ← List.getD_eq_getElem?_getD]

/-- A concrete two-dict heap for the C9 witness; no dict carries a rerank
score yet. -/
def heapW : List CandDict :=
  [⟨"aa", ⟨"ch1", "art1", "src"⟩, 0, none⟩,
   ⟨"b", ⟨"ch1", "art2", "src"⟩, 0, none⟩]

/-- Witness for C9: the first dict of the concrete heap is annotated in
place with the score of its own text, its other fields unchanged. -/
theorem rerankHeap_mutates_in_place_witness :
    ((rerankHeap (fun _ t => (t.length : ℚ)) "q" heapW [0, 1]).1.getD 0
          default).rerank_score =
        some ((fun _ t => (t.length : ℚ)) "q" ((heapW.getD 0 default).text)) ∧
      ((rerankHeap (fun _ t => (t.length : ℚ)) "q" heapW [0, 1]).1.getD 0
            default).text =
          (heapW.getD 0 default).text ∧
        ((rerankHeap (fun _ t => (t.length : ℚ)) "q" heapW [0, 1]).1.getD 0
              default).metadata =
            (heapW.getD 0 default).metadata ∧
          ((rerankHeap (fun _ t => (t.length : ℚ)) "q" heapW [0, 1]).1.getD 0
                default).distance =
              (heapW.getD 0 default).distance :=
  (rerankHeap_mutates_in_place (fun _ t => (t.length : ℚ)) "q" heapW [0, 1]
    (by decide) (by decide)).1 0 (by decide)
